import Mathlib

/-!
Verification of the Pashto++ front end (lexer `lexer.ts`, parser `parser.ts`)
against its natural-language specification.  The definitions below are a
shallow embedding of the TypeScript sources: each Lean definition mirrors one
source function, keeping its name, its control flow and its mutation of the
lexer/parser cursor (threaded here as explicit state).  JavaScript `Error`
objects carry their line/column inside the message string; we keep the message
text and the position as separate fields of a structured error, rendered by
`JsError.render` in the exact format of the source (`msg + " at line " + l +
", column " + c`).  The quotation marks the source puts around an offending
token or character inside a message are omitted from the stored text.
-/

namespace PashtoPP

/-- Token kinds, from `enum TokenType` in lexer.ts. -/
inductive TokenType where
  | NUMBER
  | STRING
  | IDENTIFIER
  | KEYWORD
  | OPERATOR
  | PUNCTUATION
  | EOF
deriving DecidableEq, Repr

/-- Tokens, from `interface Token` in lexer.ts. -/
structure Token where
  type : TokenType
  value : String
  line : Nat
  column : Nat
deriving DecidableEq, Repr

/-- The fixed keyword list `KEYWORDS` of lexer.ts (order preserved). -/
def KEYWORDS : List String :=
  ["ko", "geni", "kala", "che", "we", "opejana", "raka", "olika", "oghwara",
   "rishtia", "ghalat"]

/-- The fixed operator list `OPERATORS` of lexer.ts (order preserved). -/
def OPERATORS : List String :=
  ["+", "jama", "-", "manfi", "*", "zarab", "/", "takseem", "%", "takseembaki",
   "_", "==", "!=", ">", "<", ">=", "<=", "="]

/-- Structured form of a thrown JS `Error`: the message text (without the
position suffix) plus the line/column the source interpolates into it. -/
structure JsError where
  msg : String
  line : Nat
  column : Nat
deriving DecidableEq, Repr

/-- Renders the error exactly as the source builds the `Error` message. -/
def JsError.render (e : JsError) : String :=
  e.msg ++ " at line " ++ toString e.line ++ ", column " ++ toString e.column

/-- JS `String.prototype.toLowerCase()` on the ASCII range: lower-case every
character. -/
def toLowerJS (s : String) : String :=
  String.mk (s.data.map Char.toLower)

namespace Lexer

/-- Lexer state: the fields of `class Lexer`.  `currentChar` is derived from
`code` and `position` (the source keeps it cached; the cache always equals
`code[position]` or null past the end). -/
structure St where
  code : List Char
  position : Nat
  line : Nat
  column : Nat
deriving Repr

/-- Mirrors `this.currentChar`: `code[position]`, null when out of range. -/
def currentChar (s : St) : Option Char :=
  s.code.get? s.position

/-- Mirrors `this.peek()`: the character after the current one. -/
def peekChar (s : St) : Option Char :=
  s.code.get? (s.position + 1)

/-- Mirrors `advance()`: step one character; when the *new* current character is a
newline, bump the line and reset the column (this timing is the source's). -/
def advance (s : St) : St :=
  match s.code.get? (s.position + 1) with
  | some c =>
      if c = '\n' then
        { s with position := s.position + 1, line := s.line + 1, column := 1 }
      else
        { s with position := s.position + 1, column := s.column + 1 }
  | none => { s with position := s.position + 1, column := s.column + 1 }

theorem advance_code (s : St) : (advance s).code = s.code := by
  unfold advance; split
  · split <;> rfl
  · rfl

theorem advance_position (s : St) : (advance s).position = s.position + 1 := by
  unfold advance; split
  · split <;> rfl
  · rfl

theorem currentChar_some_lt {s : St} {c : Char} (h : currentChar s = some c) :
    s.position < s.code.length := by
  by_contra hlt
  rw [currentChar, List.get?_eq_none.mpr (by omega)] at h
  exact Option.noConfusion h

/-- JS `/\s/.test(c)` restricted to the ASCII whitespace characters
(space, tab, newline, carriage return, vertical tab, form feed). -/
def isSpaceJS (c : Char) : Bool :=
  c.toNat = 32 || c.toNat = 9 || c.toNat = 10 || c.toNat = 13 ||
  c.toNat = 11 || c.toNat = 12

/-- JS `/[0-9]/.test(c)`. -/
def isDigitJS (c : Char) : Bool :=
  48 ≤ c.toNat && c.toNat ≤ 57

/-- JS `/[a-zA-Z_]/.test(c)`. -/
def isIdentStart (c : Char) : Bool :=
  (97 ≤ c.toNat && c.toNat ≤ 122) || (65 ≤ c.toNat && c.toNat ≤ 90) ||
  c.toNat = 95

/-- JS `/[a-zA-Z0-9_]/.test(c)`. -/
def isIdentChar (c : Char) : Bool :=
  isIdentStart c || isDigitJS c

/-- The loop of `skipWhitespace()`.  All lexer loops below are written with
an explicit iteration budget `fuel`; every caller passes a budget larger than
the number of remaining characters, so the budget never runs out (the
`fuel = 0` fallbacks are unreachable at those call sites). -/
def skipWhitespace (fuel : Nat) (s : St) : St :=
  match fuel with
  | 0 => s
  | f + 1 =>
      match currentChar s with
      | some c => if isSpaceJS c then skipWhitespace f (advance s) else s
      | none => s

/-- The inner loop of `skipComment()`: skip until end of line or input. -/
def commentLoop (fuel : Nat) (s : St) : St :=
  match fuel with
  | 0 => s
  | f + 1 =>
      match currentChar s with
      | some c => if c = '\n' then s else commentLoop f (advance s)
      | none => s

/-- Mirrors `skipComment()`: under a `//` guard, run to end of line and eat the
newline if present. -/
def skipComment (fuel : Nat) (s : St) : St :=
  if currentChar s = some '/' ∧ peekChar s = some '/' then
    let s1 := commentLoop fuel s
    if currentChar s1 = some '\n' then advance s1 else s1
  else s

/-- The digit-collecting loop used twice by `number()`. -/
def digitsLoop (fuel : Nat) (s : St) : List Char × St :=
  match fuel with
  | 0 => ([], s)
  | f + 1 =>
      match currentChar s with
      | some c =>
          if isDigitJS c then
            let r := digitsLoop f (advance s)
            (c :: r.1, r.2)
          else ([], s)
      | none => ([], s)

/-- Mirrors `number()`: integer part, then an optional `.` and a fraction part. -/
def number (fuel : Nat) (s : St) : Token × St :=
  let startColumn := s.column
  let (intPart, s1) := digitsLoop fuel s
  match currentChar s1 with
  | some c =>
      if c = '.' then
        let s2 := advance s1
        let (fracPart, s3) := digitsLoop fuel s2
        (⟨.NUMBER, String.mk (intPart ++ '.' :: fracPart), s3.line, startColumn⟩, s3)
      else (⟨.NUMBER, String.mk intPart, s1.line, startColumn⟩, s1)
  | none => (⟨.NUMBER, String.mk intPart, s1.line, startColumn⟩, s1)

/-- The character-collecting loop of `string()`: everything up to the closing
quote (or end of input) is kept verbatim. -/
def stringLoop (fuel : Nat) (quote : Char) (s : St) : List Char × St :=
  match fuel with
  | 0 => ([], s)
  | f + 1 =>
      match currentChar s with
      | some c =>
          if c = quote then ([], s)
          else
            let r := stringLoop f quote (advance s)
            (c :: r.1, r.2)
      | none => ([], s)

/-- Mirrors `string()`, entered with the current character being the opening quote
`quote`.  Throws `Unterminated string` when the input ends first. -/
def stringTok (fuel : Nat) (quote : Char) (s : St) : Except JsError (Token × St) :=
  let startColumn := s.column
  let s1 := advance s
  let (content, s2) := stringLoop fuel quote s1
  if currentChar s2 = some quote then
    let s3 := advance s2
    .ok (⟨.STRING, String.mk content, s3.line, startColumn⟩, s3)
  else
    .error ⟨"Unterminated string", s2.line, startColumn⟩

/-- The character-collecting loop of `identifier()`. -/
def identLoop (fuel : Nat) (s : St) : List Char × St :=
  match fuel with
  | 0 => ([], s)
  | f + 1 =>
      match currentChar s with
      | some c =>
          if isIdentChar c then
            let r := identLoop f (advance s)
            (c :: r.1, r.2)
          else ([], s)
      | none => ([], s)

/-- Mirrors `identifier()`: read an identifier-shaped lexeme, then reclassify it as a
keyword or word-operator when its lowercase form is in the fixed lists. -/
def identifier (fuel : Nat) (s : St) : Token × St :=
  let startColumn := s.column
  let (cs, s1) := identLoop fuel s
  let result := String.mk cs
  let lowerResult := toLowerJS result
  if KEYWORDS.contains lowerResult then
    (⟨.KEYWORD, lowerResult, s1.line, startColumn⟩, s1)
  else if OPERATORS.contains lowerResult then
    (⟨.OPERATOR, lowerResult, s1.line, startColumn⟩, s1)
  else
    (⟨.IDENTIFIER, result, s1.line, startColumn⟩, s1)

/-- Mirrors `operator()`, entered with current character `c`: greedy two-character
forms `==`, `!=`, `>=`, `<=`, else the single character. -/
def operator (c : Char) (s : St) : Token × St :=
  let startColumn := s.column
  let s1 := advance s
  if (c = '=' ∧ currentChar s1 = some '=') ∨
     (c = '!' ∧ currentChar s1 = some '=') ∨
     (c = '>' ∧ currentChar s1 = some '=') ∨
     (c = '<' ∧ currentChar s1 = some '=') then
    let s2 := advance s1
    (⟨.OPERATOR, String.mk [c, '='], s2.line, startColumn⟩, s2)
  else
    (⟨.OPERATOR, String.singleton c, s1.line, startColumn⟩, s1)

/-- The punctuation characters recognized by `getNextToken()`. -/
def PUNCT_CHARS : List Char :=
  ['(', ')', Char.ofNat 123, Char.ofNat 125, '[', ']', ',', '.', ';']

/-- Is `c` dispatched to `operator()`?  The source tests membership of the
one-character string in `OPERATORS`, or one of `=`, `!`, `>`, `<`. -/
def isOperatorStart (c : Char) : Bool :=
  OPERATORS.contains (String.singleton c) || c = '=' || c = '!' || c = '>' || c = '<'

/-- Mirrors `getNextToken()`: the dispatch loop of the lexer.  The two `continue`
branches (whitespace, comment) are the recursive calls; each one consumes at
least one character, so the budgets passed by `tokenizeAux` never run out. -/
def getNextToken (fuel : Nat) (s : St) : Except JsError (Token × St) :=
  match fuel with
  | 0 => .error ⟨"FUEL", 0, 0⟩
  | f + 1 =>
      match currentChar s with
      | none => .ok (⟨.EOF, "", s.line, s.column⟩, s)
      | some c =>
          if isSpaceJS c then getNextToken f (skipWhitespace f s)
          else if c = '/' ∧ peekChar s = some '/' then
            getNextToken f (skipComment f s)
          else if isDigitJS c then .ok (number f s)
          else if c = Char.ofNat 34 ∨ c = Char.ofNat 39 then stringTok f c s
          else if isIdentStart c then .ok (identifier f s)
          else if isOperatorStart c then .ok (operator c s)
          else if PUNCT_CHARS.contains c then
            .ok (⟨.PUNCTUATION, String.singleton c, s.line, s.column⟩, advance s)
          else
            .error ⟨"Unexpected character " ++ String.singleton c, s.line, s.column⟩

/-- Mirrors `tokenize()`: collect tokens until (and including) the EOF token.  Each
step hands `getNextToken` a budget of two more than the character count,
which always suffices; the outer loop runs at most one more time than the
number of characters, because every non-EOF token consumes at least one. -/
def tokenizeAux (fuel : Nat) (s : St) : Except JsError (List Token) :=
  match fuel with
  | 0 => .error ⟨"FUEL", 0, 0⟩
  | f + 1 =>
      match getNextToken (s.code.length + 2) s with
      | .error e => .error e
      | .ok (t, s') =>
          if t.type = .EOF then .ok [t]
          else
            match tokenizeAux f s' with
            | .error e => .error e
            | .ok ts => .ok (t :: ts)

/-- Mirrors `new Lexer(code).tokenize()`. -/
def tokenize (code : String) : Except JsError (List Token) :=
  tokenizeAux (code.length + 1) ⟨code.toList, 0, 1, 1⟩

end Lexer

/-- Value of a digit sequence. -/
def digitsValNat (cs : List Char) : ℕ :=
  cs.foldl (fun acc c => 10 * acc + (c.toNat - 48)) 0

/-- Mirrors `parseFloat` restricted to the number lexemes the lexer produces
(digits, optionally a dot and more digits), idealized over the rationals. -/
def parseFloatQ (v : String) : ℚ :=
  match v.toList.splitOn '.' with
  | [a] => (digitsValNat a : ℚ)
  | [a, b] => (digitsValNat a : ℚ) + (digitsValNat b : ℚ) / (10 : ℚ) ^ b.length
  | _ => 0

/-- Expression nodes, from the `Expression` interfaces of parser.ts.  Every
node carries the line/column the parser stores in it.  In
`assignmentExpression` the `left` field is the target `Identifier` node,
exactly as in the source. -/
inductive Expr where
  | numericLiteral (value : ℚ) (line column : Nat)
  | stringLiteral (value : String) (line column : Nat)
  | booleanLiteral (value : Bool) (line column : Nat)
  | identifier (name : String) (line column : Nat)
  | binaryExpression (operator : String) (left right : Expr) (line column : Nat)
  | assignmentExpression (left : Expr) (right : Expr) (line column : Nat)
  | callExpression (callee : Expr) (args : List Expr) (line column : Nat)
  | arrayLiteral (elements : List Expr) (line column : Nat)
deriving Repr

/-- Statement nodes, from the `Statement` interfaces of parser.ts.  A
`BlockStatement` value is represented by the `blockStatement` constructor;
the `body` fields typed `BlockStatement` in the source hold such a value.
The `variableDeclaration` node kind exists in the source's `NodeType` but is
never produced by the parser. -/
inductive Stmt where
  | functionDeclaration (name : String) (params : List String) (body : Stmt)
      (line column : Nat)
  | ifStatement (test : Expr) (consequent : Stmt) (alternate : Option Stmt)
      (line column : Nat)
  | whileStatement (test : Expr) (body : Stmt) (line column : Nat)
  | forStatement (varName : String) (iterable : Expr) (body : Stmt)
      (line column : Nat)
  | returnStatement (argument : Option Expr) (line column : Nat)
  | blockStatement (body : List Stmt) (line column : Nat)
  | expressionStatement (expression : Expr) (line column : Nat)
  | variableDeclaration (name : String) (value : Option Expr) (line column : Nat)
deriving Repr

/-- The `Program` root node. -/
structure Program where
  body : List Stmt
  line : Nat
  column : Nat
deriving Repr

namespace Parser

/-- Parser state: the `tokens` array and the `current` cursor of
`class Parser`. -/
structure St where
  tokens : List Token
  current : Nat
deriving DecidableEq, Repr

/-- Placeholder for an out-of-range array access (never reached on
lexer-produced token streams, which end in an EOF token the cursor stops at). -/
def defaultToken : Token := ⟨.EOF, "", 0, 0⟩

/-- Mirrors `this.peek()`. -/
def peekT (st : St) : Token :=
  st.tokens.getD st.current defaultToken

/-- Mirrors `this.previous()`. -/
def previousT (st : St) : Token :=
  st.tokens.getD (st.current - 1) defaultToken

/-- Mirrors `this.isAtEnd()`. -/
def isAtEnd (st : St) : Bool :=
  (peekT st).type = .EOF

/-- Mirrors `this.advance()` (the returned token is `previousT` of the new state). -/
def advanceP (st : St) : St :=
  if isAtEnd st then st else { st with current := st.current + 1 }

/-- Mirrors `this.check(type)` — the one-argument form: token type only. -/
def checkT (st : St) (t : TokenType) : Bool :=
  !(isAtEnd st) && ((peekT st).type = t)

/-- Mirrors `this.check(type, value)` — type plus case-insensitive value. -/
def checkV (st : St) (t : TokenType) (v : String) : Bool :=
  !(isAtEnd st) &&
  ((peekT st).type = t) && (toLowerJS (peekT st).value = toLowerJS v)

/-- Mirrors `this.match(type)`: consume the next token whenever its *type* matches,
regardless of its value.  (Every call site in the source passes exactly one
type.) -/
def matchT (st : St) (t : TokenType) : Bool × St :=
  if checkT st t then (true, advanceP st) else (false, st)

/-- Mirrors `this.matchValue(type, value)`. -/
def matchValueP (st : St) (t : TokenType) (v : String) : Bool × St :=
  if checkV st t v then (true, advanceP st) else (false, st)

/-- Parse errors: a thrown JS `Error`, or exhaustion of the iteration budget
(never reached at the budget chosen in `parseTokens`). -/
inductive PErr where
  | js (e : JsError)
  | fuel
deriving DecidableEq, Repr

/-- Mirrors `this.consume(type, message)`: checks the *type only*.  Several call
sites in the source pass three arguments `(type, value, message)` to this
two-parameter method; following JavaScript call semantics the `value`
argument is bound to `message` and the real message is silently dropped, so
those sites neither enforce the value nor report the intended message. -/
def consumeT (st : St) (t : TokenType) (message : String) :
    Except PErr (Token × St) :=
  if checkT st t then .ok (peekT st, advanceP st)
  else .error (.js ⟨message, (peekT st).line, (peekT st).column⟩)

/-- Mirrors `this.consumeValue(type, value, message)`: type plus value. -/
def consumeValueT (st : St) (t : TokenType) (v : String) (message : String) :
    Except PErr (Token × St) :=
  if checkV st t v then .ok (peekT st, advanceP st)
  else .error (.js ⟨message, (peekT st).line, (peekT st).column⟩)

/-- Operator sets of the four `parseBinaryExpression` levels, from
`equality` / `comparison` / `addition` / `multiplication`. -/
def levelOps : Nat → List String
  | 0 => ["==", "!="]
  | 1 => [">", "<", ">=", "<="]
  | 2 => ["+", "-", "_", "jama", "manfi"]
  | _ => ["*", "/", "%", "zarab", "takseem", "takseembaki"]

/-- The body of `primary()`, parameterized by the two recursive entry points
it uses: `arrayLit` stands for `this.arrayLiteral()` and `expr` for
`this.expression()`.  The array-literal and grouping branches each run their
own `match(PUNCT)`; a punctuation token consumed by the first branch's
`match` that is not `[` stays consumed when the second branch tests the next
token. -/
def primaryF (arrayLit : St → Except PErr (Expr × St))
    (expr : St → Except PErr (Expr × St)) (st : St) :
    Except PErr (Expr × St) :=
  let (mNum, s1) := matchT st .NUMBER
  if mNum then
    .ok (.numericLiteral (parseFloatQ (previousT s1).value)
          (previousT s1).line (previousT s1).column, s1)
  else
    let (mStr, s2) := matchT s1 .STRING
    if mStr then
      .ok (.stringLiteral (previousT s2).value (previousT s2).line
            (previousT s2).column, s2)
    else
      let (mTrue, s3) := matchValueP s2 .KEYWORD "rishtia"
      if mTrue then
        .ok (.booleanLiteral true (previousT s3).line (previousT s3).column, s3)
      else
        let (mFalse, s4) := matchValueP s3 .KEYWORD "ghalat"
        if mFalse then
          .ok (.booleanLiteral false (previousT s4).line
                (previousT s4).column, s4)
        else
          let (mArr, s5) := matchT s4 .PUNCTUATION
          if mArr && ((previousT s5).value = "[") then arrayLit s5
          else
            let (mGrp, s6) := matchT s5 .PUNCTUATION
            if mGrp && ((previousT s6).value = "(") then do
              let (e, s7) ← expr s6
              let (_, s8) ← consumeT s7 .PUNCTUATION ")"
              .ok (e, s8)
            else
              let (mId, s7) := matchT s6 .IDENTIFIER
              if mId then
                .ok (.identifier (previousT s7).value (previousT s7).line
                      (previousT s7).column, s7)
              else
                .error (.js ⟨"Unexpected token " ++ (peekT s7).value,
                  (peekT s7).line, (peekT s7).column⟩)

mutual

/-- Mirrors `parse()`: a program is declarations until end of input.  (The source's
`try`/`catch` merely logs and rethrows, so it is behaviorally identity.) -/
def parse (fuel : Nat) (st : St) : Except PErr (Program × St) :=
  match fuel with
  | 0 => .error .fuel
  | f + 1 => do
      let (body, st1) ← programLoop f st []
      .ok (⟨body, 1, 1⟩, st1)

/-- The `while (!this.isAtEnd())` loop of `parse()`. -/
def programLoop (fuel : Nat) (st : St) (acc : List Stmt) :
    Except PErr (List Stmt × St) :=
  match fuel with
  | 0 => .error .fuel
  | f + 1 =>
      if isAtEnd st then .ok (acc, st)
      else do
        let (d, st1) ← declaration f st
        programLoop f st1 (acc ++ [d])

/-- Mirrors `declaration()`. -/
def declaration (fuel : Nat) (st : St) : Except PErr (Stmt × St) :=
  match fuel with
  | 0 => .error .fuel
  | f + 1 =>
      let (m, st1) := matchValueP st .KEYWORD "opejana"
      if m then functionDeclaration f st1 else statement f st1

/-- Mirrors `functionDeclaration()`, entered after `opejana` was consumed. -/
def functionDeclaration (fuel : Nat) (st : St) : Except PErr (Stmt × St) :=
  match fuel with
  | 0 => .error .fuel
  | f + 1 => do
      let token := previousT st
      let (nameTok, st1) ← consumeT st .IDENTIFIER "Expected function name"
      let (_, st2) ← consumeT st1 .PUNCTUATION "("
      let (params, st3) ←
        if checkV st2 .PUNCTUATION ")" then .ok (([] : List String), st2)
        else paramsLoop f st2 []
      let (_, st4) ← consumeT st3 .PUNCTUATION ")"
      let (_, st5) ← consumeT st4 .PUNCTUATION "\x7b"
      let (body, st6) ← blockStatement f st5
      .ok (.functionDeclaration nameTok.value params body token.line token.column, st6)

/-- The parameter `do … while (this.match(PUNCT) && previous().value === ',')`
loop of `functionDeclaration()`.  When `match` consumes a punctuation token
that is not a comma, the loop exits with that token already consumed. -/
def paramsLoop (fuel : Nat) (st : St) (acc : List String) :
    Except PErr (List String × St) :=
  match fuel with
  | 0 => .error .fuel
  | f + 1 => do
      let (p, st1) ← consumeT st .IDENTIFIER "Expected parameter name"
      let (m, st2) := matchT st1 .PUNCTUATION
      if m then
        if (previousT st2).value = "," then paramsLoop f st2 (acc ++ [p.value])
        else .ok (acc ++ [p.value], st2)
      else .ok (acc ++ [p.value], st2)

/-- Mirrors `statement()`.  Note the bare-block branch: `match(PUNCT)` consumes *any*
punctuation token; when it is not `{` the consumed state falls through to
`expressionStatement`. -/
def statement (fuel : Nat) (st : St) : Except PErr (Stmt × St) :=
  match fuel with
  | 0 => .error .fuel
  | f + 1 =>
      let (mIf, st1) := matchValueP st .KEYWORD "ko"
      if mIf then ifStatement f st1
      else
        let (mWh, st2) := matchValueP st1 .KEYWORD "kala"
        if mWh then whileStatement f st2
        else
          let (mFor, st3) := matchValueP st2 .KEYWORD "che"
          if mFor then forStatement f st3
          else
            let (mRet, st4) := matchValueP st3 .KEYWORD "raka"
            if mRet then returnStatement f st4
            else
              let (mBlk, st5) := matchT st4 .PUNCTUATION
              if mBlk && ((previousT st5).value = "\x7b") then blockStatement f st5
              else expressionStatement f st5

/-- Mirrors `ifStatement()`, entered after `ko` was consumed. -/
def ifStatement (fuel : Nat) (st : St) : Except PErr (Stmt × St) :=
  match fuel with
  | 0 => .error .fuel
  | f + 1 => do
      let token := previousT st
      let (_, st1) ← consumeT st .PUNCTUATION "("
      let (test, st2) ← expression f st1
      let (_, st3) ← consumeT st2 .PUNCTUATION ")"
      let (_, st4) ← consumeT st3 .PUNCTUATION "\x7b"
      let (consequent, st5) ← blockStatement f st4
      let (mElse, st6) := matchValueP st5 .KEYWORD "geni"
      if mElse then do
        let (_, st7) ← consumeT st6 .PUNCTUATION "\x7b"
        let (alternate, st8) ← blockStatement f st7
        .ok (.ifStatement test consequent (some alternate) token.line token.column, st8)
      else
        .ok (.ifStatement test consequent none token.line token.column, st6)

/-- Mirrors `whileStatement()`, entered after `kala` was consumed. -/
def whileStatement (fuel : Nat) (st : St) : Except PErr (Stmt × St) :=
  match fuel with
  | 0 => .error .fuel
  | f + 1 => do
      let token := previousT st
      let (_, st1) ← consumeT st .PUNCTUATION "("
      let (test, st2) ← expression f st1
      let (_, st3) ← consumeT st2 .PUNCTUATION ")"
      let (_, st4) ← consumeT st3 .PUNCTUATION "\x7b"
      let (body, st5) ← blockStatement f st4
      .ok (.whileStatement test body token.line token.column, st5)

/-- Mirrors `forStatement()`, entered after `che` was consumed. -/
def forStatement (fuel : Nat) (st : St) : Except PErr (Stmt × St) :=
  match fuel with
  | 0 => .error .fuel
  | f + 1 => do
      let token := previousT st
      let (_, st1) ← consumeT st .PUNCTUATION "("
      let (varTok, st2) ← consumeT st1 .IDENTIFIER "Expected variable name in for loop"
      let (_, st3) ← consumeValueT st2 .KEYWORD "we"
        "Expected \"we\" after variable name in for loop"
      let (iterable, st4) ← expression f st3
      let (_, st5) ← consumeT st4 .PUNCTUATION ")"
      let (_, st6) ← consumeT st5 .PUNCTUATION "\x7b"
      let (body, st7) ← blockStatement f st6
      .ok (.forStatement varTok.value iterable body token.line token.column, st7)

/-- Mirrors `returnStatement()`, entered after `raka` was consumed.  The "optional
semicolon" step is `match(PUNCT)` with an empty body: it consumes the next
punctuation token whatever it is. -/
def returnStatement (fuel : Nat) (st : St) : Except PErr (Stmt × St) :=
  match fuel with
  | 0 => .error .fuel
  | f + 1 => do
      let token := previousT st
      let (argument, st1) ←
        if !(checkV st .PUNCTUATION ";") && !(checkV st .PUNCTUATION "\x7d") then do
          let (e, st') ← expression f st
          (.ok (some e, st') : Except PErr (Option Expr × St))
        else .ok (none, st)
      let (_, st2) := matchT st1 .PUNCTUATION
      .ok (.returnStatement argument token.line token.column, st2)

/-- Mirrors `blockStatement()`, entered after the opening `{` was consumed. -/
def blockStatement (fuel : Nat) (st : St) : Except PErr (Stmt × St) :=
  match fuel with
  | 0 => .error .fuel
  | f + 1 => do
      let token := previousT st
      let (stmts, st1) ← blockLoop f st []
      let (_, st2) ← consumeT st1 .PUNCTUATION "\x7d"
      .ok (.blockStatement stmts token.line token.column, st2)

/-- The statement loop of `blockStatement()`. -/
def blockLoop (fuel : Nat) (st : St) (acc : List Stmt) :
    Except PErr (List Stmt × St) :=
  match fuel with
  | 0 => .error .fuel
  | f + 1 =>
      if !(checkV st .PUNCTUATION "\x7d") && !(isAtEnd st) then do
        let (d, st1) ← declaration f st
        blockLoop f st1 (acc ++ [d])
      else .ok (acc, st)

/-- Mirrors `expressionStatement()`: like `returnStatement`, the "optional semicolon"
`match(PUNCT)` consumes the next punctuation token whatever it is. -/
def expressionStatement (fuel : Nat) (st : St) : Except PErr (Stmt × St) :=
  match fuel with
  | 0 => .error .fuel
  | f + 1 => do
      let token := peekT st
      let (expr, st1) ← expression f st
      let (_, st2) := matchT st1 .PUNCTUATION
      .ok (.expressionStatement expr token.line token.column, st2)

/-- Mirrors `expression()`. -/
def expression (fuel : Nat) (st : St) : Except PErr (Expr × St) :=
  match fuel with
  | 0 => .error .fuel
  | f + 1 => assignment f st

/-- Mirrors `assignment()`.  `match(OPERATOR)` consumes any operator token; only when
the consumed one is `=` is an assignment built (the right side is parsed
before the target is validated), otherwise the consumed state is returned. -/
def assignment (fuel : Nat) (st : St) : Except PErr (Expr × St) :=
  match fuel with
  | 0 => .error .fuel
  | f + 1 => do
      let (expr, st1) ← equality f st
      let (m, st2) := matchT st1 .OPERATOR
      if m then
        if (previousT st2).value = "=" then do
          let equals := previousT st2
          let (value, st3) ← assignment f st2
          match expr with
          | .identifier _ _ _ =>
              .ok (.assignmentExpression expr value equals.line equals.column, st3)
          | _ =>
              .error (.js ⟨"Invalid assignment target", equals.line, equals.column⟩)
        else .ok (expr, st2)
      else .ok (expr, st1)

/-- Mirrors `equality()`. -/
def equality (fuel : Nat) (st : St) : Except PErr (Expr × St) :=
  match fuel with
  | 0 => .error .fuel
  | f + 1 => parseBinaryExpression f (comparison f) (levelOps 0) st

/-- Mirrors `comparison()`. -/
def comparison (fuel : Nat) (st : St) : Except PErr (Expr × St) :=
  match fuel with
  | 0 => .error .fuel
  | f + 1 => parseBinaryExpression f (addition f) (levelOps 1) st

/-- Mirrors `addition()`. -/
def addition (fuel : Nat) (st : St) : Except PErr (Expr × St) :=
  match fuel with
  | 0 => .error .fuel
  | f + 1 => parseBinaryExpression f (multiplication f) (levelOps 2) st

/-- Mirrors `multiplication()`. -/
def multiplication (fuel : Nat) (st : St) : Except PErr (Expr × St) :=
  match fuel with
  | 0 => .error .fuel
  | f + 1 => parseBinaryExpression f (unary f) (levelOps 3) st

/-- Mirrors `parseBinaryExpression(nextMethod, operators)`: parse a left operand,
then run the operator loop. -/
def parseBinaryExpression (fuel : Nat) (next : St → Except PErr (Expr × St))
    (operators : List String) (st : St) : Except PErr (Expr × St) :=
  match fuel with
  | 0 => .error .fuel
  | f + 1 => do
      let (expr, st1) ← next st
      binLoop f next operators expr st1

/-- The `while (this.match(OPERATOR) && operators.includes(previous().value))`
loop of `parseBinaryExpression`.  `match` consumes any operator token; when
the consumed operator is not in `operators` the loop exits with it consumed
and dropped. -/
def binLoop (fuel : Nat) (next : St → Except PErr (Expr × St))
    (operators : List String) (expr : Expr) (st : St) :
    Except PErr (Expr × St) :=
  match fuel with
  | 0 => .error .fuel
  | f + 1 =>
      let (m, st1) := matchT st .OPERATOR
      if m then
        if (previousT st1).value ∈ operators then do
          let op := (previousT st1).value
          let (right, st2) ← next st1
          let p := previousT st2
          binLoop f next operators
            (.binaryExpression op expr right p.line p.column) st2
        else .ok (expr, st1)
      else .ok (expr, st)

/-- Mirrors `unary()`: a consumed `-`/`manfi` desugars to `0 - operand`; any other
consumed operator token falls through to `call()` with it consumed. -/
def unary (fuel : Nat) (st : St) : Except PErr (Expr × St) :=
  match fuel with
  | 0 => .error .fuel
  | f + 1 =>
      let (m, st1) := matchT st .OPERATOR
      if m then
        if (previousT st1).value ∈ ["-", "manfi"] then do
          let op := (previousT st1).value
          let (right, st2) ← unary f st1
          let p := previousT st2
          .ok (.binaryExpression op (.numericLiteral 0 p.line p.column) right
                p.line p.column, st2)
        else call f st1
      else call f st

/-- Mirrors `call()`: parse a primary, then the postfix-call loop. -/
def call (fuel : Nat) (st : St) : Except PErr (Expr × St) :=
  match fuel with
  | 0 => .error .fuel
  | f + 1 => do
      let (expr, st1) ← primary f st
      callLoop f expr st1

/-- The `while (true)` loop of `call()`: `match(PUNCT)` consumes any
punctuation token; only `(` continues a call, anything else breaks with the
token consumed. -/
def callLoop (fuel : Nat) (expr : Expr) (st : St) : Except PErr (Expr × St) :=
  match fuel with
  | 0 => .error .fuel
  | f + 1 =>
      let (m, st1) := matchT st .PUNCTUATION
      if m then
        if (previousT st1).value = "(" then do
          let (e, st2) ← finishCall f expr st1
          callLoop f e st2
        else .ok (expr, st1)
      else .ok (expr, st)

/-- Mirrors `finishCall(callee)`, entered after `(` was consumed. -/
def finishCall (fuel : Nat) (callee : Expr) (st : St) :
    Except PErr (Expr × St) :=
  match fuel with
  | 0 => .error .fuel
  | f + 1 => do
      let token := previousT st
      let (args, st1) ←
        if checkV st .PUNCTUATION ")" then .ok (([] : List Expr), st)
        else argsLoop f st []
      let (_, st2) ← consumeT st1 .PUNCTUATION ")"
      .ok (.callExpression callee args token.line token.column, st2)

/-- The argument `do … while` loop of `finishCall()`. -/
def argsLoop (fuel : Nat) (st : St) (acc : List Expr) :
    Except PErr (List Expr × St) :=
  match fuel with
  | 0 => .error .fuel
  | f + 1 => do
      let (e, st1) ← expression f st
      let (m, st2) := matchT st1 .PUNCTUATION
      if m then
        if (previousT st2).value = "," then argsLoop f st2 (acc ++ [e])
        else .ok (acc ++ [e], st2)
      else .ok (acc ++ [e], st2)

/-- Mirrors `primary()`: delegates to `primaryF` with the two recursive entries
(`arrayLiteral()` and `expression()`) passed in. -/
def primary (fuel : Nat) (st : St) : Except PErr (Expr × St) :=
  match fuel with
  | 0 => .error .fuel
  | f + 1 => primaryF (arrayLiteral f) (expression f) st

/-- Mirrors `arrayLiteral()`, entered after `[` was consumed. -/
def arrayLiteral (fuel : Nat) (st : St) : Except PErr (Expr × St) :=
  match fuel with
  | 0 => .error .fuel
  | f + 1 => do
      let token := previousT st
      let (elements, st1) ←
        if checkV st .PUNCTUATION "]" then .ok (([] : List Expr), st)
        else elemsLoop f st []
      let (_, st2) ← consumeT st1 .PUNCTUATION "]"
      .ok (.arrayLiteral elements token.line token.column, st2)

/-- The element `do … while` loop of `arrayLiteral()`. -/
def elemsLoop (fuel : Nat) (st : St) (acc : List Expr) :
    Except PErr (List Expr × St) :=
  match fuel with
  | 0 => .error .fuel
  | f + 1 => do
      let (e, st1) ← expression f st
      let (m, st2) := matchT st1 .PUNCTUATION
      if m then
        if (previousT st2).value = "," then elemsLoop f st2 (acc ++ [e])
        else .ok (acc ++ [e], st2)
      else .ok (acc ++ [e], st2)

end

/-- Mirrors `new Parser(tokens).parse()`: an iteration budget linear in the number of
tokens always suffices, since the grammar's call depth and every loop are
bounded by the token count. -/
def parseTokens (tokens : List Token) : Except PErr (Program × St) :=
  parse (60 * (tokens.length + 2)) ⟨tokens, 0⟩

end Parser

/-- Lex then parse a source text, as `runPashtoPlusPlus` does before handing
the program to the interpreter. -/
def parseProgram (code : String) : Except Parser.PErr Program :=
  match Lexer.tokenize code with
  | .error e => .error (.js e)
  | .ok toks =>
      match Parser.parseTokens toks with
      | .error e => .error e
      | .ok (prog, _) => .ok prog

/-- Result shape of `runPashtoPlusPlus` in interpreter-client.ts. -/
structure RunResult where
  output : String
  error : Option String
deriving DecidableEq, Repr

/-- Mirrors `runPashtoPlusPlus(code, inputCallback)` from interpreter-client.ts:
tokenize, parse, then interpret; any thrown error is caught and returned as
`{ output: '', error: message }`.  The interpreter module is not among the
sources in scope here, so the pipeline is abstracted over it (`interp`). -/
def runPashtoPlusPlus (interp : Program → RunResult) (code : String) :
    RunResult :=
  match Lexer.tokenize code with
  | .error e => ⟨"", some e.render⟩
  | .ok toks =>
      match Parser.parseTokens toks with
      | .error (.js e) => ⟨"", some e.render⟩
      | .error .fuel => ⟨"", some "FUEL"⟩
      | .ok (prog, _) => interp prog

/-! General facts about the lexer used by the claims below. -/

namespace Lexer

theorem not_space_of_identChar {c : Char} (h : isIdentChar c = true) :
    isSpaceJS c = false := by
  rw [Bool.eq_false_iff]
  intro hs
  simp only [isSpaceJS, Bool.or_eq_true, decide_eq_true_eq] at hs
  simp only [isIdentChar, isIdentStart, isDigitJS, Bool.or_eq_true,
    Bool.and_eq_true, decide_eq_true_eq] at h
  omega

theorem not_digit_of_identStart {c : Char} (h : isIdentStart c = true) :
    isDigitJS c = false := by
  rw [Bool.eq_false_iff]
  intro hs
  simp only [isDigitJS, Bool.and_eq_true, decide_eq_true_eq] at hs
  simp only [isIdentStart, Bool.or_eq_true, Bool.and_eq_true,
    decide_eq_true_eq] at h
  omega

theorem ne_slash_of_identChar {c : Char} (h : isIdentChar c = true) :
    ¬ c = '/' := by
  intro he; subst he; exact absurd h (by decide)

theorem ne_dquote_of_identChar {c : Char} (h : isIdentChar c = true) :
    ¬ c = Char.ofNat 34 := by
  intro he; subst he; exact absurd h (by decide)

theorem ne_squote_of_identChar {c : Char} (h : isIdentChar c = true) :
    ¬ c = Char.ofNat 39 := by
  intro he; subst he; exact absurd h (by decide)

theorem ne_newline_of_identChar {c : Char} (h : isIdentChar c = true) :
    ¬ c = '\n' := by
  intro he; subst he; exact absurd h (by decide)

theorem advance_not_newline {s : St}
    (h : ∀ ch, s.code.get? (s.position + 1) = some ch → ¬ ch = '\n') :
    (advance s).line = s.line ∧ (advance s).column = s.column + 1 := by
  unfold advance
  split
  · rename_i c hc
    rw [if_neg (h c hc)]
    exact ⟨rfl, rfl⟩
  · exact ⟨rfl, rfl⟩

theorem drop_succ_of_drop {α : Type} {l : List α} {p : Nat} {c : α}
    {u : List α} (h : l.drop p = c :: u) : l.drop (p + 1) = u := by
  rw [← List.tail_drop, h, List.tail_cons]

theorem currentChar_of_drop {s : St} {c : Char} {u : List Char}
    (h : s.code.drop s.position = c :: u) : currentChar s = some c := by
  have h1 := List.get?_drop s.code s.position 0
  rw [h] at h1
  simpa [currentChar] using h1.symm

theorem currentChar_none_of_drop {s : St}
    (h : s.code.drop s.position = []) : currentChar s = none := by
  have := congrArg List.length h
  rw [List.length_drop] at this
  simp only [List.length_nil] at this
  rw [currentChar, List.get?_eq_none]
  omega

theorem identLoop_spec (u : List Char) :
    ∀ (fuel : Nat) (s : St),
    s.code.drop s.position = u → (∀ c ∈ u, isIdentChar c = true) →
    u.length < fuel →
    identLoop fuel s =
      (u, (⟨s.code, s.position + u.length, s.line, s.column + u.length⟩ : St)) := by
  induction u with
  | nil =>
      intro fuel s hdrop _ hfuel
      obtain ⟨f, rfl⟩ : ∃ f, fuel = f + 1 := ⟨fuel - 1, by omega⟩
      have hnone := currentChar_none_of_drop hdrop
      simp [identLoop, hnone]
  | cons c u ih =>
      intro fuel s hdrop hall hfuel
      obtain ⟨f, rfl⟩ : ∃ f, fuel = f + 1 := ⟨fuel - 1, by omega⟩
      have hcur := currentChar_of_drop hdrop
      have hc : isIdentChar c = true := hall c (by simp)
      have hdrop' : (advance s).code.drop (advance s).position = u := by
        rw [advance_code, advance_position]
        exact drop_succ_of_drop hdrop
      have hlc : (advance s).line = s.line ∧ (advance s).column = s.column + 1 := by
        refine advance_not_newline ?_
        intro ch hch
        have h0 : u.get? 0 = some ch := by
          have h1 := List.get?_drop s.code (s.position + 1) 0
          rw [drop_succ_of_drop hdrop] at h1
          rw [h1, Nat.add_zero, hch]
        cases u with
        | nil => exact absurd h0 (by simp)
        | cons c2 u2 =>
            simp only [List.get?_cons_zero, Option.some.injEq] at h0
            subst h0
            exact ne_newline_of_identChar (hall c2 (by simp))
      have ih' := ih f (advance s) hdrop'
        (fun x hx => hall x (by simp [hx]))
        (by simp only [List.length_cons] at hfuel; omega)
      rw [advance_code, advance_position, hlc.1, hlc.2] at ih'
      rw [identLoop, hcur]
      dsimp only
      rw [if_pos hc, ih']
      rw [show s.position + 1 + u.length = s.position + (c :: u).length from by
        simp only [List.length_cons]; omega]
      rw [show s.column + 1 + u.length = s.column + (c :: u).length from by
        simp only [List.length_cons]; omega]

theorem stringLoop_spec (u : List Char) :
    ∀ (fuel : Nat) (q : Char) (s : St) (rest : List Char),
    s.code.drop s.position = u ++ q :: rest → (∀ c ∈ u, ¬ c = q) →
    u.length < fuel →
    (stringLoop fuel q s).1 = u ∧ (stringLoop fuel q s).2.code = s.code ∧
    (stringLoop fuel q s).2.position = s.position + u.length := by
  induction u with
  | nil =>
      intro fuel q s rest hdrop _ hfuel
      obtain ⟨f, rfl⟩ : ∃ f, fuel = f + 1 := ⟨fuel - 1, by omega⟩
      have hcur : currentChar s = some q := currentChar_of_drop (by simpa using hdrop)
      rw [stringLoop, hcur]
      simp
  | cons c u ih =>
      intro fuel q s rest hdrop hne hfuel
      obtain ⟨f, rfl⟩ : ∃ f, fuel = f + 1 := ⟨fuel - 1, by omega⟩
      have hcur : currentChar s = some c := currentChar_of_drop (by simpa using hdrop)
      have hcq : ¬ c = q := hne c (by simp)
      have hdrop' : (advance s).code.drop (advance s).position = u ++ q :: rest := by
        rw [advance_code, advance_position]
        exact drop_succ_of_drop (by simpa using hdrop)
      have ih' := ih f q (advance s) rest hdrop'
        (fun x hx => hne x (by simp [hx]))
        (by simp only [List.length_cons] at hfuel; omega)
      rw [stringLoop, hcur]
      dsimp only
      rw [if_neg hcq]
      refine ⟨by rw [ih'.1], ?_, ?_⟩
      · rw [ih'.2.1, advance_code]
      · rw [ih'.2.2, advance_position]
        simp only [List.length_cons]
        omega

theorem tokenizeAux_two (n : Nat) (s0 s1 s2 : St) (tok eofTok : Token)
    (hg1 : getNextToken (s0.code.length + 2) s0 = .ok (tok, s1))
    (ht : ¬ tok.type = TokenType.EOF)
    (hg2 : getNextToken (s1.code.length + 2) s1 = .ok (eofTok, s2))
    (he : eofTok.type = TokenType.EOF) :
    tokenizeAux (n + 2) s0 = .ok [tok, eofTok] := by
  rw [show n + 2 = (n + 1) + 1 from rfl, tokenizeAux, hg1]
  dsimp only
  rw [if_neg ht, tokenizeAux, hg2]
  dsimp only
  rw [if_pos he]

theorem tokenize_identShaped (w : String) (c : Char) (u : List Char)
    (hw : w.data = c :: u) (hstart : isIdentStart c = true)
    (hall : ∀ ch ∈ w.data, isIdentChar ch = true) :
    tokenize w = .ok
      [⟨(if KEYWORDS.contains (toLowerJS w) = true then TokenType.KEYWORD
         else if OPERATORS.contains (toLowerJS w) = true then TokenType.OPERATOR
         else TokenType.IDENTIFIER),
        (if KEYWORDS.contains (toLowerJS w) = true then toLowerJS w
         else if OPERATORS.contains (toLowerJS w) = true then toLowerJS w
         else w),
        1, 1⟩,
       ⟨TokenType.EOF, "", 1, w.length + 1⟩] := by
  have hlen : w.length = u.length + 1 := by
    rw [show w.length = w.data.length from rfl, hw, List.length_cons]
  have hdata : w.toList = c :: u := hw
  have hchar : isIdentChar c = true := hall c (by rw [hw]; simp)
  have hcode : (⟨w.toList, 0, 1, 1⟩ : St).code = w.toList := rfl
  have hcur0 : currentChar ⟨w.toList, 0, 1, 1⟩ = some c := by
    apply currentChar_of_drop
    rw [hcode, List.drop_zero]
    exact hdata
  have hres : String.mk (c :: u) = w := by rw [← hw]
  -- reading the lexeme
  have hloop' : identLoop (w.toList.length + 1) ⟨w.toList, 0, 1, 1⟩ =
      (c :: u, ⟨w.toList, u.length + 1, 1, u.length + 2⟩) := by
    have hl := identLoop_spec (c :: u) (w.toList.length + 1) ⟨w.toList, 0, 1, 1⟩
      (by rw [hcode, List.drop_zero]; exact hdata)
      (by rw [← hw]; exact hall)
      (by rw [hdata]; simp)
    dsimp only at hl
    rw [List.length_cons] at hl
    rw [hl]
    rw [show 0 + (u.length + 1) = u.length + 1 from by omega,
      show 1 + (u.length + 1) = u.length + 2 from by omega]
  -- step 1: getNextToken dispatches to identifier()
  have hg1 : getNextToken (w.toList.length + 2) ⟨w.toList, 0, 1, 1⟩ =
      .ok (identifier (w.toList.length + 1) ⟨w.toList, 0, 1, 1⟩) := by
    rw [show w.toList.length + 2 = (w.toList.length + 1) + 1 from rfl,
      getNextToken, hcur0]
    dsimp only
    rw [if_neg (by simp [not_space_of_identChar hchar]),
      if_neg (fun hq => ne_slash_of_identChar hchar hq.1),
      if_neg (by simp [not_digit_of_identStart hstart]),
      if_neg (by
        rintro (hq | hq)
        · exact ne_dquote_of_identChar hchar hq
        · exact ne_squote_of_identChar hchar hq),
      if_pos hstart]
  have hcur1 : currentChar ⟨w.toList, u.length + 1, 1, u.length + 2⟩ = none := by
    rw [show currentChar ⟨w.toList, u.length + 1, 1, u.length + 2⟩ =
      w.toList.get? (u.length + 1) from rfl, List.get?_eq_none]
    rw [hdata, List.length_cons]
  have hg2 : getNextToken ((⟨w.toList, u.length + 1, 1, u.length + 2⟩ : St).code.length + 2)
      ⟨w.toList, u.length + 1, 1, u.length + 2⟩ =
      .ok (⟨TokenType.EOF, "", 1, u.length + 2⟩,
        ⟨w.toList, u.length + 1, 1, u.length + 2⟩) := by
    rw [show (⟨w.toList, u.length + 1, 1, u.length + 2⟩ : St).code.length + 2 =
      ((⟨w.toList, u.length + 1, 1, u.length + 2⟩ : St).code.length + 1) + 1 from rfl,
      getNextToken, hcur1]
  -- assemble, by cases on the classification of the lexeme
  rw [tokenize, show w.length + 1 = u.length + 2 from by omega]
  by_cases hK : KEYWORDS.contains (toLowerJS w) = true
  · rw [if_pos hK, if_pos hK]
    have hident : getNextToken ((⟨w.toList, 0, 1, 1⟩ : St).code.length + 2)
        ⟨w.toList, 0, 1, 1⟩ =
        .ok (⟨TokenType.KEYWORD, toLowerJS w, 1, 1⟩,
          ⟨w.toList, u.length + 1, 1, u.length + 2⟩) := by
      rw [hcode, hg1, identifier, hloop']
      dsimp only
      rw [hres, if_pos hK]
    exact tokenizeAux_two u.length _ _ _ _ _ hident (by simp) hg2 rfl
  · rw [if_neg hK, if_neg hK]
    by_cases hO : OPERATORS.contains (toLowerJS w) = true
    · rw [if_pos hO, if_pos hO]
      have hident : getNextToken ((⟨w.toList, 0, 1, 1⟩ : St).code.length + 2)
          ⟨w.toList, 0, 1, 1⟩ =
          .ok (⟨TokenType.OPERATOR, toLowerJS w, 1, 1⟩,
            ⟨w.toList, u.length + 1, 1, u.length + 2⟩) := by
        rw [hcode, hg1, identifier, hloop']
        dsimp only
        rw [hres, if_neg hK, if_pos hO]
      exact tokenizeAux_two u.length _ _ _ _ _ hident (by simp) hg2 rfl
    · rw [if_neg hO, if_neg hO]
      have hident : getNextToken ((⟨w.toList, 0, 1, 1⟩ : St).code.length + 2)
          ⟨w.toList, 0, 1, 1⟩ =
          .ok (⟨TokenType.IDENTIFIER, w, 1, 1⟩,
            ⟨w.toList, u.length + 1, 1, u.length + 2⟩) := by
        rw [hcode, hg1, identifier, hloop']
        dsimp only
        rw [hres, if_neg hK, if_neg hO]
      exact tokenizeAux_two u.length _ _ _ _ _ hident (by simp) hg2 rfl

theorem tokenize_stringLit (q : Char) (w : String)
    (hq : q = Char.ofNat 34 ∨ q = Char.ofNat 39)
    (hcontent : ∀ ch ∈ w.data, ¬ ch = q) :
    ∃ l1 l2 c2, tokenize (String.singleton q ++ w ++ String.singleton q) = .ok
      [⟨TokenType.STRING, w, l1, 1⟩, ⟨TokenType.EOF, "", l2, c2⟩] := by
  have hSdata : (String.singleton q ++ w ++ String.singleton q).data = q :: (w.data ++ [q]) := by
    rw [show (String.singleton q ++ w ++ String.singleton q).data =
      ((String.singleton q).data ++ w.data) ++ (String.singleton q).data from rfl]
    simp [String.singleton]
  have hSlen : (String.singleton q ++ w ++ String.singleton q).length = w.data.length + 2 := by
    rw [show (String.singleton q ++ w ++ String.singleton q).length = (String.singleton q ++ w ++ String.singleton q).data.length from rfl,
      hSdata]
    simp
  have hSlist : (String.singleton q ++ w ++ String.singleton q).toList = q :: (w.data ++ [q]) := hSdata
  have hcur0 : currentChar ⟨(String.singleton q ++ w ++ String.singleton q).toList, 0, 1, 1⟩ = some q := by
    apply currentChar_of_drop
    rw [show (⟨(String.singleton q ++ w ++ String.singleton q).toList, 0, 1, 1⟩ : St).code.drop 0 =
      (String.singleton q ++ w ++ String.singleton q).toList from List.drop_zero _]
    exact hSlist
  -- the state just after the opening quote
  have ha1 : (advance ⟨(String.singleton q ++ w ++ String.singleton q).toList, 0, 1, 1⟩).code =
      (String.singleton q ++ w ++ String.singleton q).toList := advance_code _
  have ha2 : (advance ⟨(String.singleton q ++ w ++ String.singleton q).toList, 0, 1, 1⟩).position = 1 :=
    advance_position _
  have hsl := stringLoop_spec w.data ((String.singleton q ++ w ++ String.singleton q).toList.length + 1) q
    (advance ⟨(String.singleton q ++ w ++ String.singleton q).toList, 0, 1, 1⟩) []
    (by rw [ha1, ha2, hSlist]
        rw [show (q :: (w.data ++ [q])).drop 1 = w.data ++ [q] from rfl])
    hcontent
    (by rw [hSlist]; simp; omega)
  -- the state at the closing quote
  have hb1 : (stringLoop ((String.singleton q ++ w ++ String.singleton q).toList.length + 1) q
      (advance ⟨(String.singleton q ++ w ++ String.singleton q).toList, 0, 1, 1⟩)).2.code =
      (String.singleton q ++ w ++ String.singleton q).toList := by rw [hsl.2.1, ha1]
  have hb2 : (stringLoop ((String.singleton q ++ w ++ String.singleton q).toList.length + 1) q
      (advance ⟨(String.singleton q ++ w ++ String.singleton q).toList, 0, 1, 1⟩)).2.position =
      w.data.length + 1 := by rw [hsl.2.2, ha2]; omega
  have hcurb : currentChar (stringLoop ((String.singleton q ++ w ++ String.singleton q).toList.length + 1) q
      (advance ⟨(String.singleton q ++ w ++ String.singleton q).toList, 0, 1, 1⟩)).2 = some q := by
    apply currentChar_of_drop (u := [])
    rw [hb1, hb2, hSlist, show w.data.length + 1 = w.data.length + 1 from rfl]
    rw [List.drop_succ_cons]
    rw [show (w.data ++ [q] : List Char).drop w.data.length = [q] from
      List.drop_left w.data [q]]
  have hslpair : stringLoop ((String.singleton q ++ w ++ String.singleton q).toList.length + 1) q
      (advance ⟨(String.singleton q ++ w ++ String.singleton q).toList, 0, 1, 1⟩) =
      (w.data, (stringLoop ((String.singleton q ++ w ++ String.singleton q).toList.length + 1) q
        (advance ⟨(String.singleton q ++ w ++ String.singleton q).toList, 0, 1, 1⟩)).2) := by
    rw [← hsl.1]
  -- step 1: getNextToken dispatches to string()
  have hg1 : getNextToken ((String.singleton q ++ w ++ String.singleton q).toList.length + 2)
      ⟨(String.singleton q ++ w ++ String.singleton q).toList, 0, 1, 1⟩ =
      .ok (⟨TokenType.STRING, w,
        (advance (stringLoop ((String.singleton q ++ w ++ String.singleton q).toList.length + 1) q
          (advance ⟨(String.singleton q ++ w ++ String.singleton q).toList, 0, 1, 1⟩)).2).line, 1⟩,
        advance (stringLoop ((String.singleton q ++ w ++ String.singleton q).toList.length + 1) q
          (advance ⟨(String.singleton q ++ w ++ String.singleton q).toList, 0, 1, 1⟩)).2) := by
    rw [show (String.singleton q ++ w ++ String.singleton q).toList.length + 2 =
      ((String.singleton q ++ w ++ String.singleton q).toList.length + 1) + 1 from rfl,
      getNextToken, hcur0]
    dsimp only
    rw [if_neg (by rcases hq with rfl | rfl <;> decide),
      if_neg (by rintro ⟨hc, -⟩; rcases hq with rfl | rfl <;>
        exact absurd hc (by decide)),
      if_neg (by rcases hq with rfl | rfl <;> decide), if_pos hq]
    rw [stringTok]
    dsimp only
    rw [hslpair]
    dsimp only
    rw [if_pos hcurb]
  -- step 2: end of input
  have hc1 : (advance (stringLoop ((String.singleton q ++ w ++ String.singleton q).toList.length + 1) q
      (advance ⟨(String.singleton q ++ w ++ String.singleton q).toList, 0, 1, 1⟩)).2).code =
      (String.singleton q ++ w ++ String.singleton q).toList := by rw [advance_code, hb1]
  have hc2 : (advance (stringLoop ((String.singleton q ++ w ++ String.singleton q).toList.length + 1) q
      (advance ⟨(String.singleton q ++ w ++ String.singleton q).toList, 0, 1, 1⟩)).2).position =
      w.data.length + 2 := by rw [advance_position, hb2]
  have hcurc : currentChar (advance (stringLoop
      ((String.singleton q ++ w ++ String.singleton q).toList.length + 1) q
      (advance ⟨(String.singleton q ++ w ++ String.singleton q).toList, 0, 1, 1⟩)).2) = none := by
    rw [currentChar, hc1, hc2, List.get?_eq_none]
    rw [show (String.singleton q ++ w ++ String.singleton q).toList.length = (String.singleton q ++ w ++ String.singleton q).length from rfl,
      hSlen]
  have hg2 : getNextToken ((advance (stringLoop
        ((String.singleton q ++ w ++ String.singleton q).toList.length + 1) q
        (advance ⟨(String.singleton q ++ w ++ String.singleton q).toList, 0, 1, 1⟩)).2).code.length + 2)
      (advance (stringLoop ((String.singleton q ++ w ++ String.singleton q).toList.length + 1) q
        (advance ⟨(String.singleton q ++ w ++ String.singleton q).toList, 0, 1, 1⟩)).2) =
      .ok (⟨TokenType.EOF, "",
        (advance (stringLoop ((String.singleton q ++ w ++ String.singleton q).toList.length + 1) q
          (advance ⟨(String.singleton q ++ w ++ String.singleton q).toList, 0, 1, 1⟩)).2).line,
        (advance (stringLoop ((String.singleton q ++ w ++ String.singleton q).toList.length + 1) q
          (advance ⟨(String.singleton q ++ w ++ String.singleton q).toList, 0, 1, 1⟩)).2).column⟩,
        advance (stringLoop ((String.singleton q ++ w ++ String.singleton q).toList.length + 1) q
          (advance ⟨(String.singleton q ++ w ++ String.singleton q).toList, 0, 1, 1⟩)).2) := by
    rw [show (advance (stringLoop ((String.singleton q ++ w ++ String.singleton q).toList.length + 1) q
        (advance ⟨(String.singleton q ++ w ++ String.singleton q).toList, 0, 1, 1⟩)).2).code.length + 2 =
      ((advance (stringLoop ((String.singleton q ++ w ++ String.singleton q).toList.length + 1) q
        (advance ⟨(String.singleton q ++ w ++ String.singleton q).toList, 0, 1, 1⟩)).2).code.length + 1) + 1 from rfl,
      getNextToken, hcurc]
  have hmain : tokenize (String.singleton q ++ w ++ String.singleton q) = .ok
      [⟨TokenType.STRING, w,
        (advance (stringLoop ((String.singleton q ++ w ++ String.singleton q).toList.length + 1) q
          (advance ⟨(String.singleton q ++ w ++ String.singleton q).toList, 0, 1, 1⟩)).2).line, 1⟩,
       ⟨TokenType.EOF, "",
        (advance (stringLoop ((String.singleton q ++ w ++ String.singleton q).toList.length + 1) q
          (advance ⟨(String.singleton q ++ w ++ String.singleton q).toList, 0, 1, 1⟩)).2).line,
        (advance (stringLoop ((String.singleton q ++ w ++ String.singleton q).toList.length + 1) q
          (advance ⟨(String.singleton q ++ w ++ String.singleton q).toList, 0, 1, 1⟩)).2).column⟩] := by
    rw [tokenize, show (String.singleton q ++ w ++ String.singleton q).length + 1 = (w.data.length + 1) + 2 from by
      rw [hSlen]]
    exact tokenizeAux_two (w.data.length + 1) _ _ _ _ _ hg1 (by simp) hg2 rfl
  exact ⟨_, _, _, hmain⟩

end Lexer

namespace Parser

/-- Whenever `primary()` is reached with a keyword token other than
`rishtia`/`ghalat` up next, it throws `Unexpected token …` carrying that
token's line and column — no branch of the primary body accepts such a
token, whatever the recursive entries do. -/
theorem primaryF_keyword (arrayLit : St → Except PErr (Expr × St))
    (expr : St → Except PErr (Expr × St)) (st : St) (v : String) (l col : Nat)
    (hpeek : peekT st = ⟨TokenType.KEYWORD, v, l, col⟩)
    (hr : ¬ toLowerJS v = "rishtia") (hg : ¬ toLowerJS v = "ghalat") :
    primaryF arrayLit expr st =
      .error (.js ⟨"Unexpected token " ++ v, l, col⟩) := by
  have hend : isAtEnd st = false := by simp [isAtEnd, hpeek]
  have h1 : matchT st TokenType.NUMBER = (false, st) := by
    simp [matchT, checkT, hend, hpeek]
  have h2 : matchT st TokenType.STRING = (false, st) := by
    simp [matchT, checkT, hend, hpeek]
  have h3 : matchValueP st TokenType.KEYWORD "rishtia" = (false, st) := by
    simp [matchValueP, checkV, hend, hpeek,
      show toLowerJS "rishtia" = "rishtia" from rfl, hr]
  have h4 : matchValueP st TokenType.KEYWORD "ghalat" = (false, st) := by
    simp [matchValueP, checkV, hend, hpeek,
      show toLowerJS "ghalat" = "ghalat" from rfl, hg]
  have h5 : matchT st TokenType.PUNCTUATION = (false, st) := by
    simp [matchT, checkT, hend, hpeek]
  have h6 : matchT st TokenType.IDENTIFIER = (false, st) := by
    simp [matchT, checkT, hend, hpeek]
  rw [primaryF, h1]
  dsimp only
  rw [h2]
  dsimp only
  rw [h3]
  dsimp only
  rw [h4]
  dsimp only
  rw [h5]
  dsimp only
  rw [h5]
  dsimp only
  rw [h6]
  dsimp only
  rw [hpeek]
  simp

end Parser

/-! The claims. -/

/-- Claim C1 (evidence of the code bug): mixing precedence levels does not
build the nested tree the specification describes.  `parseBinaryExpression`'s
loop runs `match(OPERATOR)`, which consumes any operator token before its
value is tested, so an operator that does not belong to the innermost
(multiplicative) level is consumed and dropped.  Parsing the statement
`5 + 3` therefore yields a program with *two* expression statements, `5` and
`3`, with no binary `+` node; `1 + 2 * 3` likewise yields the statements `1`
and `2 * 3`. -/
theorem claim_C1 :
    parseProgram "5 + 3" = .ok
      ⟨[.expressionStatement (.numericLiteral 5 1 1) 1 1,
        .expressionStatement (.numericLiteral 3 1 5) 1 5], 1, 1⟩ ∧
    parseProgram "1 + 2 * 3" = .ok
      ⟨[.expressionStatement (.numericLiteral 1 1 1) 1 1,
        .expressionStatement
          (.binaryExpression "*" (.numericLiteral 2 1 5) (.numericLiteral 3 1 9)
            1 9) 1 5], 1, 1⟩ :=
  ⟨rfl, rfl⟩

/-- Claim C2 (evidence of the code bug): the one-statement program
`olika("Salam" _ "Ji")` does not run at all.  `olika` is lexed as a keyword,
and `primary()` rejects every keyword token except `rishtia`/`ghalat`, so
parsing throws `Unexpected token olika` at line 1, column 1, and the pipeline
returns an empty output buffer with that error message — for any interpreter
behind the parser. -/
theorem claim_C2 :
    parseProgram "olika(\"Salam\" _ \"Ji\")" =
      .error (.js ⟨"Unexpected token olika", 1, 1⟩) ∧
    ∀ interp : Program → RunResult,
      runPashtoPlusPlus interp "olika(\"Salam\" _ \"Ji\")" =
        ⟨"", some "Unexpected token olika at line 1, column 1"⟩ :=
  ⟨rfl, fun _ => rfl⟩

/-- Witness for C2 at a concrete interpreter. -/
theorem claim_C2_witness :
    runPashtoPlusPlus (fun _ => ⟨"", none⟩) "olika(\"Salam\" _ \"Ji\")" =
      ⟨"", some "Unexpected token olika at line 1, column 1"⟩ :=
  claim_C2.2 (fun _ => ⟨"", none⟩)

/-- Claim C3 (evidence of the code bug): a function declaration with one or
more parameters never parses.  The parameter loop's `match(PUNCT)` consumes
the closing `)`, the following value-blind `consume` then eats the `{` in its
place, and the next `consume` fails at the first body token (message `{` —
the value argument the source passes lands in the message parameter).  A
zero-parameter declaration does parse. -/
theorem claim_C3 :
    parseProgram "opejana jor(a, b) \x7b raka a + b \x7d" =
      .error (.js ⟨"\x7b", 1, 21⟩) ∧
    parseProgram "opejana f() \x7b \x7d" = .ok
      ⟨[.functionDeclaration "f" [] (.blockStatement [] 1 13) 1 1], 1, 1⟩ :=
  ⟨rfl, rfl⟩

/-- Claim C4 (evidence of the code bug): assignment never reaches the
parser's assignment branch, because the `=` operator token is consumed and
dropped by the (value-blind) `match(OPERATOR)` at the multiplicative level.
`x = 5` parses as the two expression statements `x` and `5` with no
assignment node, and `5 = 3` parses the same way instead of failing with
`Invalid assignment target`. -/
theorem claim_C4 :
    parseProgram "x = 5" = .ok
      ⟨[.expressionStatement (.identifier "x" 1 1) 1 1,
        .expressionStatement (.numericLiteral 5 1 5) 1 5], 1, 1⟩ ∧
    parseProgram "5 = 3" = .ok
      ⟨[.expressionStatement (.numericLiteral 5 1 1) 1 1,
        .expressionStatement (.numericLiteral 3 1 5) 1 5], 1, 1⟩ :=
  ⟨rfl, rfl⟩

/-- Claim C5 (evidence of the code bug): the trailing `;` is not optional.
The "optional semicolon" step is `match(PUNCT)`, which consumes the next
punctuation token whatever it is; with no `;` before `}` it swallows the
closing brace, and the block then fails at end of input.  So
`opejana f() { raka; }` parses while `opejana f() { raka }` throws. -/
theorem claim_C5 :
    parseProgram "opejana f() \x7b raka; \x7d" = .ok
      ⟨[.functionDeclaration "f" []
          (.blockStatement [.returnStatement none 1 15] 1 13) 1 1], 1, 1⟩ ∧
    parseProgram "opejana f() \x7b raka \x7d" =
      .error (.js ⟨"\x7d", 1, 21⟩) :=
  ⟨rfl, rfl⟩

/-- Claim C6 (evidence of the code bug): replacing a required punctuation
character by a different one is not rejected where the claim says it is.
`consume` receives three arguments at those sites but its two-parameter
signature checks the token *type* only, so `opejana f]) { }` parses
successfully (the `]` is accepted in place of `(`); and the claim's own
example `ko (rishtia] { }` does fail, but only later, at the end of input
with message `}` at line 1, column 17 — not at the offending `]` (line 1,
column 12). -/
theorem claim_C6 :
    parseProgram "opejana f]) \x7b \x7d" = .ok
      ⟨[.functionDeclaration "f" [] (.blockStatement [] 1 13) 1 1], 1, 1⟩ ∧
    parseProgram "ko (rishtia] \x7b \x7d" =
      .error (.js ⟨"\x7d", 1, 17⟩) :=
  ⟨rfl, rfl⟩

/-- Claim C7, counterexample: the first token of `"a\nb"` starts on line 1,
but no token of the output carries line 1 — the lexer bumps the line counter
as soon as the newline becomes the current character, while the token is
still being read. -/
theorem claim_C7_counterexample :
    ¬ ∃ (t : Token) (rest : List Token),
      Lexer.tokenize "a\nb" = .ok (t :: rest) ∧ t.line = 1 := by
  rintro ⟨t, rest, heq, hline⟩
  have hval : Lexer.tokenize "a\nb" =
      .ok [⟨.IDENTIFIER, "a", 2, 1⟩, ⟨.IDENTIFIER, "b", 2, 2⟩,
           ⟨.EOF, "", 2, 3⟩] := rfl
  rw [hval] at heq
  simp only [Except.ok.injEq, List.cons.injEq] at heq
  rw [← heq.1] at hline
  exact absurd hline (by decide)

/-- Claim C7 as amended: positions are 1-based and per-character; on the
first line columns are exact — tokenizing `"5 + 3"` yields Number(5),
Operator(+), Number(3), end-of-input at columns 1, 3, 5, 6 of line 1 — but
the line counter increments (and the column resets) already when a newline
becomes the current character, so a token whose scan stops at a following
newline reports the next line number, and the first token after a newline
has column 2: tokenizing `"a\nb"` yields both identifiers on line 2, at
columns 1 and 2. -/
theorem claim_C7 :
    Lexer.tokenize "5 + 3" = .ok
      [⟨.NUMBER, "5", 1, 1⟩, ⟨.OPERATOR, "+", 1, 3⟩, ⟨.NUMBER, "3", 1, 5⟩,
       ⟨.EOF, "", 1, 6⟩] ∧
    Lexer.tokenize "a\nb" = .ok
      [⟨.IDENTIFIER, "a", 2, 1⟩, ⟨.IDENTIFIER, "b", 2, 2⟩,
       ⟨.EOF, "", 2, 3⟩] :=
  ⟨rfl, rfl⟩

/-- Claim C8: keyword and word-operator recognition is case-insensitive with
lowercase normalization.  Every identifier-shaped lexeme tokenizes as a
keyword token with the lowercase value when its lowercase form is in
`KEYWORDS`, as an operator token with the lowercase value when it is in
`OPERATORS`, and otherwise as an identifier preserving the original casing;
in particular `KO`, `Ko`, `ko` tokenize identically, `JAMA` tokenizes as the
operator `jama`, and the parser treats `jama` at the same additive level as
`+` (both are in the additive operator list, and the token streams for
`5 jama 3` and `5 + 3` parse to the same program). -/
theorem claim_C8 :
    (∀ (w : String) (c : Char) (u : List Char),
      w.data = c :: u → Lexer.isIdentStart c = true →
      (∀ ch ∈ w.data, Lexer.isIdentChar ch = true) →
      Lexer.tokenize w = .ok
        [⟨(if KEYWORDS.contains (toLowerJS w) = true then .KEYWORD
           else if OPERATORS.contains (toLowerJS w) = true then .OPERATOR
           else .IDENTIFIER),
          (if KEYWORDS.contains (toLowerJS w) = true then toLowerJS w
           else if OPERATORS.contains (toLowerJS w) = true then toLowerJS w
           else w),
          1, 1⟩,
         ⟨.EOF, "", 1, w.length + 1⟩]) ∧
    (Lexer.tokenize "KO" = Lexer.tokenize "ko" ∧
     Lexer.tokenize "Ko" = Lexer.tokenize "ko" ∧
     Lexer.tokenize "ko" = .ok [⟨.KEYWORD, "ko", 1, 1⟩, ⟨.EOF, "", 1, 3⟩]) ∧
    Lexer.tokenize "JAMA" = .ok [⟨.OPERATOR, "jama", 1, 1⟩, ⟨.EOF, "", 1, 5⟩] ∧
    Lexer.tokenize "Foo" = .ok [⟨.IDENTIFIER, "Foo", 1, 1⟩, ⟨.EOF, "", 1, 4⟩] ∧
    ("jama" ∈ Parser.levelOps 2 ∧ "+" ∈ Parser.levelOps 2) ∧
    (Parser.parseTokens [⟨.NUMBER, "5", 1, 1⟩, ⟨.OPERATOR, "jama", 1, 3⟩,
        ⟨.NUMBER, "3", 1, 5⟩, ⟨.EOF, "", 1, 6⟩]).map Prod.fst = .ok
      ⟨[.expressionStatement (.numericLiteral 5 1 1) 1 1,
        .expressionStatement (.numericLiteral 3 1 5) 1 5], 1, 1⟩ ∧
    (Parser.parseTokens [⟨.NUMBER, "5", 1, 1⟩, ⟨.OPERATOR, "+", 1, 3⟩,
        ⟨.NUMBER, "3", 1, 5⟩, ⟨.EOF, "", 1, 6⟩]).map Prod.fst = .ok
      ⟨[.expressionStatement (.numericLiteral 5 1 1) 1 1,
        .expressionStatement (.numericLiteral 3 1 5) 1 5], 1, 1⟩ :=
  ⟨Lexer.tokenize_identShaped, ⟨rfl, rfl, rfl⟩, rfl, rfl, ⟨by decide, by decide⟩,
   rfl, rfl⟩

/-- Witness for C8: the general part applied to the lexemes `KO` and `Foo`. -/
theorem claim_C8_witness :
    Lexer.tokenize "KO" = .ok [⟨.KEYWORD, "ko", 1, 1⟩, ⟨.EOF, "", 1, 3⟩] ∧
    Lexer.tokenize "Foo" = .ok [⟨.IDENTIFIER, "Foo", 1, 1⟩, ⟨.EOF, "", 1, 4⟩] :=
  ⟨claim_C8.1 "KO" 'K' ['O'] rfl (by decide) (by decide),
   claim_C8.1 "Foo" 'F' ['o', 'o'] rfl (by decide) (by decide)⟩

/-- Claim C9: a string literal may span lines, and every character between
the opening and closing quote — newlines and the other quote character
included — is kept verbatim in the token's value; when the closing quote
appears, tokenization succeeds with exactly the string token (at column 1 of
the source here, since the literal starts the input) followed by
end-of-input. -/
theorem claim_C9 (q : Char) (w : String)
    (hq : q = Char.ofNat 34 ∨ q = Char.ofNat 39)
    (hcontent : ∀ ch ∈ w.data, ¬ ch = q) :
    ∃ l1 l2 c2,
      Lexer.tokenize (String.singleton q ++ w ++ String.singleton q) =
        .ok [⟨.STRING, w, l1, 1⟩, ⟨.EOF, "", l2, c2⟩] :=
  Lexer.tokenize_stringLit q w hq hcontent

/-- Witness for C9: a double-quoted literal whose content holds a newline
and a single quote (character 39). -/
theorem claim_C9_witness :
    ∃ l1 l2 c2,
      Lexer.tokenize (String.singleton (Char.ofNat 34) ++
          String.mk ['a', '\n', Char.ofNat 39, 'b'] ++
          String.singleton (Char.ofNat 34)) =
        .ok [⟨.STRING, String.mk ['a', '\n', Char.ofNat 39, 'b'], l1, 1⟩,
             ⟨.EOF, "", l2, c2⟩] :=
  claim_C9 (Char.ofNat 34) (String.mk ['a', '\n', Char.ofNat 39, 'b'])
    (Or.inl rfl) (by decide)

/-- Claim C10: all eleven keywords are reserved words.  `KEYWORDS` has
exactly eleven entries; every identifier-shaped lexeme whose lowercase form
is a keyword (including `olika`, `oghwara`, `we`, `geni`) tokenizes as a
keyword token; wherever the parser expects a primary expression, a keyword
token other than `rishtia`/`ghalat` makes it throw `Unexpected token …` (so
such names are never parsed as variable references, assignment targets, or
call targets); and in particular each of the four named keywords fails to
parse as an expression. -/
theorem claim_C10 :
    KEYWORDS.length = 11 ∧
    (∀ (k : String), k ∈ KEYWORDS →
      ∀ (w : String) (c : Char) (u : List Char),
      w.data = c :: u → Lexer.isIdentStart c = true →
      (∀ ch ∈ w.data, Lexer.isIdentChar ch = true) →
      toLowerJS w = k →
      Lexer.tokenize w = .ok
        [⟨.KEYWORD, k, 1, 1⟩, ⟨.EOF, "", 1, w.length + 1⟩]) ∧
    (∀ (arrayLit expr : Parser.St → Except Parser.PErr (Expr × Parser.St))
       (st : Parser.St) (v : String) (l col : Nat),
      Parser.peekT st = ⟨.KEYWORD, v, l, col⟩ →
      ¬ toLowerJS v = "rishtia" → ¬ toLowerJS v = "ghalat" →
      Parser.primaryF arrayLit expr st =
        .error (.js ⟨"Unexpected token " ++ v, l, col⟩)) ∧
    parseProgram "olika" = .error (.js ⟨"Unexpected token olika", 1, 1⟩) ∧
    parseProgram "oghwara" = .error (.js ⟨"Unexpected token oghwara", 1, 1⟩) ∧
    parseProgram "we" = .error (.js ⟨"Unexpected token we", 1, 1⟩) ∧
    parseProgram "geni" = .error (.js ⟨"Unexpected token geni", 1, 1⟩) := by
  refine ⟨rfl, ?_, Parser.primaryF_keyword, rfl, rfl, rfl, rfl⟩
  intro k hk w c u hw hs ha hlow
  have hcontains : KEYWORDS.contains (toLowerJS w) = true := by
    rw [hlow]
    simpa using hk
  have h := Lexer.tokenize_identShaped w c u hw hs ha
  rw [hcontains] at h
  simp only [if_pos rfl] at h
  rw [hlow] at h
  exact h

/-- Witness for C10: the general parts applied to the lexeme `OLIKA` and to
a parser state whose next token is the keyword `olika`. -/
theorem claim_C10_witness :
    Lexer.tokenize "OLIKA" =
      .ok [⟨.KEYWORD, "olika", 1, 1⟩, ⟨.EOF, "", 1, 6⟩] ∧
    Parser.primaryF (fun _ => .error .fuel) (fun _ => .error .fuel)
        ⟨[⟨.KEYWORD, "olika", 1, 1⟩], 0⟩ =
      .error (.js ⟨"Unexpected token olika", 1, 1⟩) :=
  ⟨claim_C10.2.1 "olika" (by decide) "OLIKA" 'O' ['L', 'I', 'K', 'A'] rfl
      (by decide) (by decide) rfl,
   claim_C10.2.2.1 _ _ _ "olika" 1 1 rfl (by decide) (by decide)⟩

end PashtoPP
